import Mathlib

/-!
Verification development for the `changeblogger` tool
(`src/changeblogger/main.py`).

The Python source is shallowly embedded: Python `str` values become
`List Char`, stateful pieces (the git queries, the HTTP call, the
interactive prompt, the README file) become explicit inputs and outputs,
and code that can raise an uncaught exception returns `Option`.
Each definition is a direct translation of the function of the same name
in `main.py`; doc comments cite the line numbers it comes from.

Modelling conventions:
  * Python whitespace (`str.strip`, the regex class `\s`) is modelled by
    the ASCII whitespace characters, which is what all the inputs of
    interest contain.
  * `re.IGNORECASE` matching of the ASCII literal `## Changelog` is
    modelled by comparing `Char.toLower` images.
  * The replacement string `r'\1' + summary + '\n'` of `re.sub` is a
    template: `expandTemplate` models CPython's `parse_template` escape
    processing over it (group references, octal escapes, letter escapes,
    `\g<...>` names through Python's `int`), with `none` for the
    `re.error`/`IndexError` the program would raise; identifiers and
    whitespace in the template are modelled at ASCII fidelity.
-/

namespace Changeblogger

/-- Characters treated as whitespace by Python's `str.strip` and by the
regex class `\s` (ASCII fragment). -/
def isPySpace (c : Char) : Bool :=
  c = ' ' || c = '\t' || c = '\n' || c = '\r' || c = '\x0b' || c = '\x0c'

/-- Python `str.strip()`: remove leading and trailing whitespace. -/
def pyStrip (s : List Char) : List Char :=
  ((s.dropWhile isPySpace).reverse.dropWhile isPySpace).reverse

/-- Python `str.split(sep)` for a one-character separator: splitting the
empty string yields `[[]]`, and adjacent separators yield empty fields.
The result is never empty, so `headD`/`tail` pick apart the recursive
result exactly. -/
def pySplit (sep : Char) : List Char → List (List Char)
  | [] => [[]]
  | c :: rest =>
    let r := pySplit sep rest
    if c = sep then [] :: r else (c :: r.headD []) :: r.tail

/-- Python `'\n'.join(lines)`. -/
def joinNL : List (List Char) → List Char
  | [] => []
  | [l] => l
  | l :: ls => l ++ '\n' :: joinNL ls

/-- Python `response.strip().lower()` as used for the confirmation prompt
(`main.py:452`). -/
def stripLower (s : List Char) : List Char :=
  (pyStrip s).map Char.toLower

/-- The five change kinds used by `main.py` (the values of `status_map`,
`main.py:316-322`). -/
inductive Kind where
  | added
  | modified
  | deleted
  | renamed
  | copied
deriving DecidableEq

/-- The `categories` dictionary of `categorize_changes`
(`main.py:308-314`); a key absent from the final filtered dictionary is
represented by an empty list, which Python's `dict.get` treats the same
way (both are falsy). -/
structure Categories where
  added : List (List Char)
  modified : List (List Char)
  deleted : List (List Char)
  renamed : List (List Char)
  copied : List (List Char)
deriving DecidableEq

/-- The empty `categories` dictionary (`main.py:308-314`). -/
def emptyCategories : Categories := ⟨[], [], [], [], []⟩

/-- The status classification of `categorize_changes` (`main.py:316-330`):
look at `status[0]`, map `A`/`M`/`D`/`R`/`C` through `status_map`, default
to `modified`.  Python raises `IndexError` on an empty status string,
modelled by `none`. -/
def classify (status : List Char) : Option Kind :=
  match status with
  | [] => none
  | c :: _ =>
    some (if c = 'A' then .added
          else if c = 'M' then .modified
          else if c = 'D' then .deleted
          else if c = 'R' then .renamed
          else if c = 'C' then .copied
          else .modified)

/-- `categories[status_map[base_status]].append(filename)`
(`main.py:328-330`): put `fn` into the list of its kind.  The recursion in
`categorize_changes` processes the tail afterwards, so consing here keeps
the original staged order. -/
def addToCategory (cats : Categories) (k : Kind) (fn : List Char) : Categories :=
  match k with
  | .added => ⟨fn :: cats.added, cats.modified, cats.deleted, cats.renamed, cats.copied⟩
  | .modified => ⟨cats.added, fn :: cats.modified, cats.deleted, cats.renamed, cats.copied⟩
  | .deleted => ⟨cats.added, cats.modified, fn :: cats.deleted, cats.renamed, cats.copied⟩
  | .renamed => ⟨cats.added, cats.modified, cats.deleted, fn :: cats.renamed, cats.copied⟩
  | .copied => ⟨cats.added, cats.modified, cats.deleted, cats.renamed, fn :: cats.copied⟩

/-- `categorize_changes` (`main.py:306-332`): bucket the staged
`(status, filename)` pairs by the first letter of the status.  `none`
models the uncaught `IndexError` of `status[0]` on an empty status. -/
def categorize_changes : List (List Char × List Char) → Option Categories
  | [] => some emptyCategories
  | (st, fn) :: rest =>
    match classify st, categorize_changes rest with
    | some k, some cs => some (addToCategory cs k fn)
    | _, _ => none

/-- The `binary_extensions` set of `is_likely_text_file`
(`main.py:289-290`). -/
def binary_extensions : List (List Char) :=
  [".jpg".data, ".jpeg".data, ".png".data, ".gif".data, ".pdf".data, ".zip".data,
   ".tar".data, ".gz".data, ".exe".data, ".dll".data, ".so".data, ".dylib".data]

/-- The final path component, as `pathlib.Path(filename).name` for the
POSIX paths git produces. -/
def pathName (filename : List Char) : List Char :=
  (pySplit '/' filename).getLastD []

/-- `pathlib.Path(filename).suffix`: the part of the final component from
its last dot, empty when the dot is the first or the last character. -/
def pathSuffix (filename : List Char) : List Char :=
  let name := pathName filename
  match (name.reverse.findIdx? (· = '.')) with
  | none => []
  | some j =>
    let i := name.length - 1 - j
    if 0 < i ∧ i < name.length - 1 then name.drop i else []

/-- `is_likely_text_file` (`main.py:286-304`): reject a denylisted
extension (lower-cased), a null byte in the content, or content longer
than 50,000 characters. -/
def is_likely_text_file (filename content : List Char) : Bool :=
  if (pathSuffix filename).map Char.toLower ∈ binary_extensions then false
  else if '\x00' ∈ content then false
  else if 50000 < content.length then false
  else true

/-- The truncation marker appended by `call_openai_api`
(`main.py:183` and `main.py:190`). -/
def truncation_marker : List Char := "\n... (truncated)".data

/-- The truncation step of `call_openai_api` (`main.py:182-183` for added
content with `limit = 3000`, `main.py:189-190` for diffs with
`limit = 2000`): `content[:limit] + "\n... (truncated)"` when
`len(content) > limit`, otherwise unchanged. -/
def truncateContent (limit : Nat) (s : List Char) : List Char :=
  if limit < s.length then s.take limit ++ truncation_marker else s

/-- One entry of the `changes_data` list built by `prepare_changes_for_ai`
(`main.py:253-256`).  `payload` is the `content` value for an added file
and the `diff` value for a modified or renamed file. -/
structure ChangeInfo where
  filename : List Char
  kind : Kind
  payload : List Char
deriving DecidableEq

/-- The body of the `prepare_changes_for_ai` loop for one staged pair
(`main.py:252-282`).  `contentOf` models `get_file_content` and `diffFor`
models `get_file_diff`.  Statuses starting with `A` keep the file content
and pass the `is_likely_text_file` guard; statuses starting with `M` or
`R` keep the diff with no guard; statuses starting with `D` are skipped;
any other status leaves the default `modified` entry with no diff key, so
`change_info.get('diff')` is falsy and the entry is dropped. -/
def prepareOne (contentOf diffFor : List Char → List Char)
    (st fn : List Char) : Option ChangeInfo :=
  if st.head? = some 'A' then
    let content := contentOf fn
    if content ≠ [] ∧ is_likely_text_file fn content then
      some ⟨fn, .added, content⟩
    else none
  else if st.head? = some 'M' then
    let diff := diffFor fn
    if diff ≠ [] then some ⟨fn, .modified, diff⟩ else none
  else if st.head? = some 'D' then none
  else if st.head? = some 'R' then
    let diff := diffFor fn
    if diff ≠ [] then some ⟨fn, .renamed, diff⟩ else none
  else none

/-- `prepare_changes_for_ai` (`main.py:248-284`): the payload list sent to
the summarization service. -/
def prepare_changes_for_ai (contentOf diffFor : List Char → List Char)
    (staged : List (List Char × List Char)) : List ChangeInfo :=
  staged.filterMap (fun p => prepareOne contentOf diffFor p.1 p.2)

/-- The body of an HTTP response as read by
`result['choices'][0]['message']['content']` (`main.py:225-226`):
either text that fails JSON decoding or lacks the expected keys
(`malformed`, raising inside the `try`), or a well-formed body carrying
the list of choice message contents. -/
inductive ApiBody where
  | malformed
  | wellFormed (choices : List (List Char))

/-- Outcome of the single `requests.post` call of `call_openai_api`
(`main.py:217-222`): either an exception (connection failure, timeout),
or an HTTP response with a status code and a body. -/
inductive HttpOutcome where
  | transportError
  | response (status : Nat) (body : ApiBody)

/-- `call_openai_api` (`main.py:156-233`) with the network interaction as
an explicit input.  `none` without any request when no key is configured
(`main.py:158-159`).  Every exception inside the `try` (transport error,
JSON decode error, missing `choices`/`message`/`content` keys, empty
`choices` list) is caught at `main.py:231-233` and yields `none`; a
non-200 status yields `none` at `main.py:227-229`; on success the first
choice's content is returned stripped (`main.py:224-226`). -/
def call_openai_api (apiKey : Option (List Char)) (outcome : HttpOutcome) :
    Option (List Char) :=
  match apiKey with
  | none => none
  | some _ =>
    match outcome with
    | .transportError => none
    | .response status body =>
      if status = 200 then
        match body with
        | .malformed => none
        | .wellFormed [] => none
        | .wellFormed (c :: _) => some (pyStrip c)
      else none

/-- The `summary_lines` list built by `generate_summary`
(`main.py:334-373`), with the clock (`datetime.now().strftime`) as the
explicit `date` input.  The guard `if ai_summary:` (`main.py:341`) is
Python truthiness: the summary block is emitted only when the summary is
present *and* non-empty — `some []` is falsy and produces no block. -/
def generateLines (date : List Char) (cats : Categories) (stats : List Char)
    (ai : Option (List Char)) : List (List Char) :=
  ["## Changes - ".data ++ date]
  ++ (match ai with
      | some s => if s = [] then [] else [[], "**Summary:**".data, s, []]
      | none => [])
  ++ (if cats.added ≠ [] then
        ["**Added files:** ".data ++ List.intercalate ", ".data cats.added]
      else [])
  ++ (if cats.modified ≠ [] then
        ["**Modified files:** ".data ++ List.intercalate ", ".data cats.modified]
      else [])
  ++ (if cats.deleted ≠ [] then
        ["**Deleted files:** ".data ++ List.intercalate ", ".data cats.deleted]
      else [])
  ++ (if cats.renamed ≠ [] then
        ["**Renamed files:** ".data ++ List.intercalate ", ".data cats.renamed]
      else [])
  ++ (if cats.copied ≠ [] then
        ["**Copied files:** ".data ++ List.intercalate ", ".data cats.copied]
      else [])
  ++ (if stats ≠ [] then
        ["**Changes summary:**".data,
         "```\n".data ++ (pySplit '\n' stats).getLastD [] ++ "\n```".data]
      else [])
  ++ [[]]

/-- `generate_summary` (`main.py:334-375`): `'\n'.join(summary_lines)`. -/
def generate_summary (date : List Char) (cats : Categories) (stats : List Char)
    (ai : Option (List Char)) : List Char :=
  joinNL (generateLines date cats stats ai)

/-- The rendered fragment as the (amended) claim C8 words it, after spec
section 4.4: the header line `## Changes - <date>`; if a *non-empty*
summary is present (a present empty summary is falsy in the program and
yields no block), a blank line, `**Summary:**`, the summary text and a
blank line; one `**<Label> files:** <comma-joined paths>` line per
non-empty category in the fixed order added, modified, deleted, renamed,
copied; if the stats line is non-empty, a `**Changes summary:**` label
with the stats line in a fenced code block; every line is terminated by
its newline, the final newline leaving the trailing blank line. -/
def renderSpecC8 (date : List Char) (cats : Categories) (statsLine : List Char)
    (ai : Option (List Char)) : List Char :=
  "## Changes - ".data ++ date ++ ['\n']
  ++ (match ai with
      | some s =>
        if s = [] then []
        else ['\n'] ++ ("**Summary:**".data ++ ['\n']) ++ (s ++ ['\n']) ++ ['\n']
      | none => [])
  ++ (if cats.added ≠ [] then
        ("**Added files:** ".data ++ List.intercalate ", ".data cats.added) ++ ['\n']
      else [])
  ++ (if cats.modified ≠ [] then
        ("**Modified files:** ".data ++ List.intercalate ", ".data cats.modified) ++ ['\n']
      else [])
  ++ (if cats.deleted ≠ [] then
        ("**Deleted files:** ".data ++ List.intercalate ", ".data cats.deleted) ++ ['\n']
      else [])
  ++ (if cats.renamed ≠ [] then
        ("**Renamed files:** ".data ++ List.intercalate ", ".data cats.renamed) ++ ['\n']
      else [])
  ++ (if cats.copied ≠ [] then
        ("**Copied files:** ".data ++ List.intercalate ", ".data cats.copied) ++ ['\n']
      else [])
  ++ (if statsLine ≠ [] then
        ("**Changes summary:**".data ++ ['\n'])
          ++ ("```\n".data ++ statsLine ++ "\n```".data) ++ ['\n']
      else [])

/-- Position of the last `'\n'` in a character list, or `none`. -/
def lastNL : List Char → Option Nat
  | [] => none
  | c :: rest =>
    match lastNL rest with
    | some i => some (i + 1)
    | none => if c = '\n' then some 0 else none

/-- The match, at the head of `s`, of the regex
`## Changelog\s*\n` with `re.IGNORECASE` (`main.py:387`): the literal is
compared case-insensitively, then the greedy `\s*\n` consumes the longest
whitespace run that ends at a newline, i.e. the maximal whitespace run up
to and including its last newline.  Returns the length of the match. -/
def matchHeadingAt (s : List Char) : Option Nat :=
  if (s.take 12).map Char.toLower = "## changelog".data then
    match lastNL ((s.drop 12).takeWhile isPySpace) with
    | some i => some (12 + i + 1)
    | none => none
  else none

/-- `re.search(changelog_pattern, content, re.IGNORECASE)`
(`main.py:389`): does the pattern match at some position? -/
def searchHeading : List Char → Bool
  | [] => (matchHeadingAt []).isSome
  | c :: rest => (matchHeadingAt (c :: rest)).isSome || searchHeading rest

/-- ASCII decimal digit, as Python's `DIGITS` set in the template
parser. -/
def isDig (c : Char) : Bool := '0' ≤ c && c ≤ '9'

/-- ASCII octal digit, as Python's `OCTDIGITS`. -/
def isOct (c : Char) : Bool := '0' ≤ c && c ≤ '7'

/-- ASCII letter, as Python's `ASCIILETTERS` (an unknown escape of one of
these is an error). -/
def isALet (c : Char) : Bool :=
  ('a' ≤ c && c ≤ 'z') || ('A' ≤ c && c ≤ 'Z')

/-- Numeric value of an ASCII digit. -/
def digVal (c : Char) : Nat := c.toNat - 48

/-- The `ESCAPES` table of the template parser: the letter escapes
`\a \b \f \n \r \t \v` and `\\` map to their characters; every other
input is not a known escape. -/
def escChar (c : Char) : Option Char :=
  if c = 'a' then some (Char.ofNat 7)
  else if c = 'b' then some (Char.ofNat 8)
  else if c = 'f' then some (Char.ofNat 12)
  else if c = 'n' then some '\n'
  else if c = 'r' then some '\r'
  else if c = 't' then some '\t'
  else if c = 'v' then some (Char.ofNat 11)
  else if c = '\\' then some '\\'
  else none

/-- Python `str.isidentifier()` at ASCII fidelity: a first character that
is a letter or underscore, followed by letters, digits or underscores. -/
def isIdentChar (c : Char) : Bool := isALet c || isDig c || c = '_'

/-- See `isIdentChar`; used for `\g<name>` names, which take the
named-group path when they look like identifiers. -/
def isIdentifier (s : List Char) : Bool :=
  match s with
  | [] => false
  | c :: rest => (isALet c || c = '_') && rest.all isIdentChar

/-- Digits possibly separated by single underscores, as accepted inside a
Python `int()` literal: used after the optional sign. -/
def pyIntDigits (acc : Nat) : List Char → Option Nat
  | [] => some acc
  | '_' :: d :: rest =>
    if isDig d then pyIntDigits (acc * 10 + digVal d) rest else none
  | '_' :: [] => none
  | d :: rest =>
    if isDig d then pyIntDigits (acc * 10 + digVal d) rest else none

/-- Python `int(name)` for a `\g<name>` group name, as the template
parser uses it (`main.py`'s regex has one group, so only the resulting
index matters): optional surrounding whitespace, an optional sign (a
negative index is rejected by the parser right after), digits with
underscores between them.  `none` models `ValueError`. -/
def pyIntName (s : List Char) : Option Nat :=
  match pyStrip s with
  | '+' :: rest =>
    (match rest with
     | d :: rest' => if isDig d then pyIntDigits (digVal d) rest' else none
     | [] => none)
  | '-' :: _ => none
  | d :: rest => if isDig d then pyIntDigits (digVal d) rest else none
  | [] => none

/-- Does a fragment start with a decimal digit?  When it does, the digit
merges with the `\1` group reference in front of it in the replacement
template (two-digit group reference or three-digit octal escape). -/
def headNotDigit (s : List Char) : Bool :=
  match s with
  | [] => true
  | c :: _ => !(isDig c)

/-- CPython's `parse_template` combined with expansion, for the pattern
`(## Changelog\s*\n)` (one group; group 0 and group 1 are both the whole
match `matched`).  Processes the replacement string left to right:
`\g<name>` with a numeric name (through Python's `int`) of value 0 or 1
becomes the match, identifiers hit the absent named-group table, `\0` and
three-octal-digit sequences are octal escapes (range-checked against
0o377), `\N`/`\NN` are group references valid only for group 1, known
letter escapes map through `escChar`, an unknown ASCII-letter escape, a
trailing backslash and an invalid group are errors (`none`, the
`re.error`/`IndexError` the program would raise), and a backslash before
any other character is kept literally.  Each step consumes at least one
character, so fuel equal to the template length suffices. -/
def expandTemplateAux (matched : List Char) : Nat → List Char → Option (List Char)
  | _, [] => some []
  | 0, _ :: _ => none
  | fuel + 1, c :: rest =>
    if c = '\\' then
      match rest with
      | [] => none
      | e :: r2 =>
        if e = 'g' then
          match r2 with
          | '<' :: r3 =>
            let name := r3.takeWhile (fun x => !(x = '>'))
            if name.length < r3.length then
              if name = [] then none
              else if isIdentifier name then none
              else
                match pyIntName name with
                | some idx =>
                  if idx ≤ 1 then
                    (expandTemplateAux matched fuel (r3.drop (name.length + 1))).map
                      (fun t => matched ++ t)
                  else none
                | none => none
            else none
          | _ => none
        else if e = '0' then
          match r2 with
          | d1 :: r3 =>
            if isOct d1 then
              match r3 with
              | d2 :: r4 =>
                if isOct d2 then
                  (expandTemplateAux matched fuel r4).map
                    (fun t => Char.ofNat (digVal d1 * 8 + digVal d2) :: t)
                else
                  (expandTemplateAux matched fuel r3).map
                    (fun t => Char.ofNat (digVal d1) :: t)
              | [] => some [Char.ofNat (digVal d1)]
            else
              (expandTemplateAux matched fuel r2).map
                (fun t => Char.ofNat 0 :: t)
          | [] => some [Char.ofNat 0]
        else if isDig e then
          match r2 with
          | d :: r3 =>
            if isDig d then
              match r3 with
              | f3 :: r4 =>
                if isOct e && isOct d && isOct f3 then
                  if 255 < digVal e * 64 + digVal d * 8 + digVal f3 then none
                  else
                    (expandTemplateAux matched fuel r4).map
                      (fun t => Char.ofNat (digVal e * 64 + digVal d * 8 + digVal f3) :: t)
                else if 10 * digVal e + digVal d ≤ 1 then
                  (expandTemplateAux matched fuel r3).map (fun t => matched ++ t)
                else none
              | [] =>
                if 10 * digVal e + digVal d ≤ 1 then some matched else none
            else if digVal e ≤ 1 then
              (expandTemplateAux matched fuel r2).map (fun t => matched ++ t)
            else none
          | [] => if digVal e ≤ 1 then some matched else none
        else
          match escChar e with
          | some ch => (expandTemplateAux matched fuel r2).map (fun t => ch :: t)
          | none =>
            if isALet e then none
            else
              (expandTemplateAux matched fuel r2).map (fun t => '\\' :: e :: t)
    else (expandTemplateAux matched fuel rest).map (fun t => c :: t)

/-- See `expandTemplateAux`: expansion of a replacement template against
one match. -/
def expandTemplate (matched tmpl : List Char) : Option (List Char) :=
  expandTemplateAux matched tmpl.length tmpl

/-- The scan of `re.sub` (`main.py:391-396`): replace every
non-overlapping match, left to right, by the expansion of the template
`r'\1' + summary + '\n'` against the match — the matched text, then the
fragment with template escapes processed, then a newline.  `none` models
the `re.error`/`IndexError` of a bad template, which the program would
raise uncaught.  The fuel argument bounds the number of scan steps; every
step consumes at least one character, so fuel equal to the length of the
text suffices. -/
def subHeadingAux (frag : List Char) : Nat → List Char → Option (List Char)
  | _, [] => some []
  | 0, s => some s
  | fuel + 1, c :: rest =>
    match matchHeadingAt (c :: rest) with
    | some n =>
      match expandTemplate ((c :: rest).take n) ('\\' :: '1' :: (frag ++ ['\n'])) with
      | none => none
      | some repl =>
        (subHeadingAux frag fuel ((c :: rest).drop n)).map (fun s => repl ++ s)
    | none => (subHeadingAux frag fuel rest).map (fun s => c :: s)

/-- `re.sub(changelog_pattern, r'\1' + summary + '\n', content,
flags=re.IGNORECASE)` (`main.py:391-396`). -/
def subHeading (frag content : List Char) : Option (List Char) :=
  subHeadingAux frag content.length content

/-- `if not content.endswith('\n'): content += '\n'` (`main.py:399-400`);
note `''.endswith('\n')` is false, so empty content gains a newline. -/
def ensureNL (content : List Char) : List Char :=
  if content.getLast? = some '\n' then content else content ++ ['\n']

/-- The splice of `update_readme` on in-memory content
(`main.py:386-401`): insert after every heading match when the pattern is
found (with `none` for an uncaught template error from `re.sub`),
otherwise append a new `## Changelog` section at the end. -/
def update_readme_content (content frag : List Char) : Option (List Char) :=
  if searchHeading content then subHeading frag content
  else some (ensureNL content ++ '\n' :: "## Changelog\n\n".data ++ frag ++ ['\n'])

/-- `update_readme` (`main.py:377-405`) on the document state: `none` in
the argument models a missing `README.md`, replaced by the synthesized
minimal document of `main.py:381`; the result is the content written
back, or `none` for an uncaught template error. -/
def update_readme (file : Option (List Char)) (frag : List Char) :
    Option (List Char) :=
  update_readme_content
    (match file with
     | none => "# Project README\n\n## Changelog\n\n".data
     | some c => c)
    frag

/-- The per-line step of the `get_staged_changes` parsing loop
(`main.py:122-127`): a non-empty line is split on tabs, `parts[0]` is the
status and `parts[1]` the filename; a non-empty line with no tab makes
`parts[1]` raise an uncaught `IndexError`, modelled by `none`. -/
def parseLines : List (List Char) → Option (List (List Char × List Char))
  | [] => some []
  | l :: rest =>
    if l = [] then parseLines rest
    else
      match pySplit '\t' l with
      | p0 :: p1 :: _ => (parseLines rest).map (fun r => (p0, p1) :: r)
      | _ => none

/-- The parsing part of `get_staged_changes` (`main.py:121-129`) applied
to the captured `git diff --cached --name-status` output:
`result.stdout.strip().split('\n')`, then the per-line loop. -/
def get_staged_changes (stdout : List Char) :
    Option (List (List Char × List Char)) :=
  parseLines (pySplit '\n' (pyStrip stdout))

/-- The inputs of one `run` invocation (`main.py:409-458`), with every
effect of the environment made explicit: the repository check, the parsed
staged listing, the git content/diff/stat lookups, the clock, the
credential, the outcome of the one HTTP call, the operator's response and
the README state (`none` = file absent). -/
structure RunEnv where
  isRepo : Bool
  staged : List (List Char × List Char)
  contentOf : List Char → List Char
  diffFor : List Char → List Char
  stats : List Char
  date : List Char
  apiKey : Option (List Char)
  http : HttpOutcome
  response : List Char
  readme : Option (List Char)

/-- `run` (`main.py:409-458`): the pair is the process exit code and the
final README state.  `sys.exit(1)` when not a repository
(`main.py:415-417`) or when nothing is staged (`main.py:424-426`);
the AI summary is attempted only when a key is configured and the
prepared payload list is non-empty (`main.py:437-441`); an affirmative
stripped lower-cased response writes the updated README and the process
ends with code 0 (`main.py:452-455`), any other response leaves the file
alone and exits 0 (`main.py:456-458`).  `none` models an uncaught
exception: the `IndexError` of `categorize_changes` on an empty status
string, or a template error inside `update_readme`. -/
def run (env : RunEnv) : Option (Nat × Option (List Char)) :=
  if env.isRepo = false then some (1, env.readme)
  else if env.staged = [] then some (1, env.readme)
  else
    match categorize_changes env.staged with
    | none => none
    | some cats =>
      let ai : Option (List Char) :=
        match env.apiKey with
        | none => none
        | some k =>
          if prepare_changes_for_ai env.contentOf env.diffFor env.staged = [] then none
          else call_openai_api (some k) env.http
      let summary := generate_summary env.date cats env.stats ai
      if stripLower env.response = "y".data ∨ stripLower env.response = "yes".data then
        (update_readme env.readme summary).map (fun newDoc => (0, some newDoc))
      else some (0, env.readme)

/-! Helper lemmas about the Python string primitives. -/

theorem pySplit_ne_nil (sep : Char) (s : List Char) : pySplit sep s ≠ [] := by
  cases s with
  | nil => simp [pySplit]
  | cons c rest =>
    simp only [pySplit]
    split <;> simp

theorem pySplit_no_sep (sep : Char) (s : List Char) (h : sep ∉ s) :
    pySplit sep s = [s] := by
  induction s with
  | nil => rfl
  | cons c rest ih =>
    have hc : ¬(c = sep) := fun e => h (e ▸ List.mem_cons_self c rest)
    have hrest : sep ∉ rest := fun m => h (List.mem_cons_of_mem _ m)
    simp [pySplit, ih hrest, hc]

theorem pySplit_length (sep : Char) (s : List Char) :
    (pySplit sep s).length = s.count sep + 1 := by
  induction s with
  | nil => simp [pySplit]
  | cons c rest ih =>
    have hne := pySplit_ne_nil sep rest
    by_cases hc : c = sep
    · subst hc
      simp only [pySplit, if_pos rfl, if_true, List.length_cons, List.count_cons_self]
      omega
    · have hsc : ¬(sep = c) := fun e => hc e.symm
      have hcount : (c :: rest).count sep = rest.count sep := by
        rw [List.count_cons]
        simp [hc]
      have htail : (pySplit sep rest).tail.length = (pySplit sep rest).length - 1 :=
        List.length_tail _
      have hpos : 0 < (pySplit sep rest).length := List.length_pos.mpr hne
      simp only [pySplit, if_neg hc, List.length_cons, hcount, htail]
      omega

/-! Claim C3: the truncation step. -/

theorem truncation_marker_length : truncation_marker.length = 16 := by decide

/-- Claim C3: truncation is deterministic (it is a function of the input
string alone) and idempotent; a string strictly longer than the limit
(3000 for added-file content, 2000 for diffs) becomes exactly its first
`limit` characters followed by the fixed marker `"\n... (truncated)"`,
and a string of length at most the limit is returned unchanged. -/
theorem c3_truncation (s : List Char) :
    (3000 < s.length → truncateContent 3000 s = s.take 3000 ++ truncation_marker) ∧
    (s.length ≤ 3000 → truncateContent 3000 s = s) ∧
    truncateContent 3000 (truncateContent 3000 s) = truncateContent 3000 s ∧
    (2000 < s.length → truncateContent 2000 s = s.take 2000 ++ truncation_marker) ∧
    (s.length ≤ 2000 → truncateContent 2000 s = s) ∧
    truncateContent 2000 (truncateContent 2000 s) = truncateContent 2000 s := by
  have idem : ∀ (limit : Nat), truncateContent limit (truncateContent limit s) =
      truncateContent limit s := by
    intro limit
    unfold truncateContent
    by_cases h : limit < s.length
    · rw [if_pos h]
      have hlen : (s.take limit).length = limit := by
        rw [List.length_take]
        omega
      have hlong : limit < (s.take limit ++ truncation_marker).length := by
        rw [List.length_append, hlen, truncation_marker_length]
        omega
      rw [if_pos hlong, List.take_append_of_le_length (by omega),
        List.take_take, Nat.min_self]
    · rw [if_neg h, if_neg h]
  refine ⟨fun h => by rw [truncateContent, if_pos h],
          fun h => by rw [truncateContent, if_neg (by omega)],
          idem 3000,
          fun h => by rw [truncateContent, if_pos h],
          fun h => by rw [truncateContent, if_neg (by omega)],
          idem 2000⟩

/-- Witness for C3 at a concrete over-limit input. -/
theorem c3_witness :
    truncateContent 3000 (List.replicate 3001 'a') =
      (List.replicate 3001 'a').take 3000 ++ truncation_marker :=
  (c3_truncation (List.replicate 3001 'a')).1 (by rw [List.length_replicate]; omega)

/-! Claim C6: status classification. -/

/-- Claim C6: `classify` maps a status by its first letter: `A`, `M`,
`D`, `R`, `C` to added, modified, deleted, renamed, copied, ignoring all
trailing characters, and any other leading character defaults to
modified. -/
theorem c6_classify (c : Char) (rest : List Char) :
    classify ('A' :: rest) = some Kind.added ∧
    classify ('M' :: rest) = some Kind.modified ∧
    classify ('D' :: rest) = some Kind.deleted ∧
    classify ('R' :: rest) = some Kind.renamed ∧
    classify ('C' :: rest) = some Kind.copied ∧
    (c ∉ (['A', 'M', 'D', 'R', 'C'] : List Char) →
      classify (c :: rest) = some Kind.modified) := by
  refine ⟨rfl, rfl, rfl, rfl, rfl, fun h => ?_⟩
  simp only [List.mem_cons, List.not_mem_nil, or_false, not_or] at h
  obtain ⟨h1, h2, h3, h4, h5⟩ := h
  show some (if c = 'A' then Kind.added else if c = 'M' then Kind.modified
    else if c = 'D' then Kind.deleted else if c = 'R' then Kind.renamed
    else if c = 'C' then Kind.copied else Kind.modified) = some Kind.modified
  rw [if_neg h1, if_neg h2, if_neg h3, if_neg h4, if_neg h5]

/-- Witness for C6: `R100` maps to renamed, and the unrecognized leading
letter `T` maps to modified. -/
theorem c6_witness :
    classify ('R' :: "100".data) = some Kind.renamed ∧
    classify ('T' :: "100".data) = some Kind.modified :=
  ⟨(c6_classify 'T' "100".data).2.2.2.1,
   (c6_classify 'T' "100".data).2.2.2.2.2 (by decide)⟩

/-! Claim C10: partiality of the staged-listing parser. -/

theorem parseLines_isSome (ls : List (List Char))
    (h : ∀ l ∈ ls, l ≠ [] → '\t' ∈ l) : (parseLines ls).isSome := by
  induction ls with
  | nil => simp [parseLines]
  | cons l rest ih =>
    have hrest := ih (fun x hx => h x (List.mem_cons_of_mem _ hx))
    by_cases hl : l = []
    · simp [parseLines, hl, hrest]
    · have htab : '\t' ∈ l := h l (List.mem_cons_self _ _) hl
      have hcount : 0 < l.count '\t' := List.count_pos_iff.mpr htab
      have hlen : 2 ≤ (pySplit '\t' l).length := by
        rw [pySplit_length]
        omega
      simp only [parseLines, if_neg hl]
      rcases hp : pySplit '\t' l with _ | ⟨p0, _ | ⟨p1, ps⟩⟩
      · rw [hp] at hlen; simp at hlen
      · rw [hp] at hlen; simp at hlen
      · rcases Option.isSome_iff_exists.mp hrest with ⟨r, hr⟩
        simp [hr]

theorem parseLines_none (ls : List (List Char)) (l : List Char)
    (hmem : l ∈ ls) (hne : l ≠ []) (hnotab : '\t' ∉ l) :
    parseLines ls = none := by
  induction ls with
  | nil => cases hmem
  | cons x rest ih =>
    rcases List.mem_cons.mp hmem with rfl | htail
    · simp only [parseLines, if_neg hne, pySplit_no_sep '\t' l hnotab]
    · by_cases hx : x = []
      · simp [parseLines, hx, ih htail]
      · simp only [parseLines, if_neg hx]
        rcases pySplit '\t' x with _ | ⟨p0, _ | ⟨p1, ps⟩⟩
        · rfl
        · rfl
        · rw [ih htail]; rfl

/-- Claim C10: the staged-listing parser reads tab-separated field 0 as
the status and field 1 as the path of every non-empty line; a non-empty
line with no tab makes the whole parse fail (uncaught `IndexError`,
modelled as `none`), and when every non-empty line contains a tab the
parse succeeds. -/
theorem c10_listing_fields (out : List Char) :
    ((∀ l ∈ pySplit '\n' (pyStrip out), l ≠ [] → '\t' ∈ l) →
      (get_staged_changes out).isSome) ∧
    (∀ l ∈ pySplit '\n' (pyStrip out), l ≠ [] → '\t' ∉ l →
      get_staged_changes out = none) ∧
    (∀ (l p0 p1 : List Char) (ps : List (List Char)),
      pySplit '\t' l = p0 :: p1 :: ps → l ≠ [] →
      parseLines [l] = some [(p0, p1)]) := by
  refine ⟨fun h => parseLines_isSome _ h,
          fun l hl hne hno => parseLines_none _ l hl hne hno,
          fun l p0 p1 ps hsplit hne => ?_⟩
  simp [parseLines, if_neg hne, hsplit]

/-- Witness for C10 at a concrete two-line listing with tabs. -/
theorem c10_witness : (get_staged_changes "A\tf.py\nM\tg.py".data).isSome :=
  (c10_listing_fields "A\tf.py\nM\tg.py".data).1 (by decide)

/-! Claim C2: the binary/oversize guard. -/

/-- Inversion for `prepareOne`: a produced payload entry carries the
staged filename, an added entry passed the `is_likely_text_file` guard,
and only `A`-status entries can be of added kind. -/
theorem prepareOne_inv (cf df : List Char → List Char) (st fn : List Char)
    (ci : ChangeInfo) (h : prepareOne cf df st fn = some ci) :
    ci.filename = fn ∧
    (ci.kind = Kind.added → is_likely_text_file fn (cf fn) = true) := by
  unfold prepareOne at h
  split_ifs at h with h1 h2 h3 h4
  · dsimp only at h
    split_ifs at h with hc
    injection h with h
    subst h
    exact ⟨rfl, fun _ => hc.2⟩
  · dsimp only at h
    split_ifs at h with hc
    injection h with h
    subst h
    exact ⟨rfl, fun hk => by simp at hk⟩
  · dsimp only at h
    split_ifs at h with hc
    injection h with h
    subst h
    exact ⟨rfl, fun hk => by simp at hk⟩

/-- Claim C2, amended: the guard (`is_likely_text_file`: denylisted
extension, null byte, or content over 50,000 characters) is applied only
to added-status paths, which are then excluded from the summarization
payload while still appearing in their category listing; modified- and
renamed-status paths are included whenever their diff is non-empty, with
no guard at all; deleted-status paths and paths of any other status
never reach the payload. -/
theorem c2_amended_guard :
    (∀ (cf df : List Char → List Char) (st fn : List Char),
      st.head? = some 'A' → is_likely_text_file fn (cf fn) = false →
      prepareOne cf df st fn = none) ∧
    (∀ (staged : List (List Char × List Char)) (st fn : List Char)
       (cats : Categories),
      (st, fn) ∈ staged → st.head? = some 'A' →
      categorize_changes staged = some cats → fn ∈ cats.added) ∧
    (∀ (cf df : List Char → List Char) (staged : List (List Char × List Char))
       (fn : List Char), is_likely_text_file fn (cf fn) = false →
      ∀ ci ∈ prepare_changes_for_ai cf df staged, ci.filename = fn →
        ci.kind ≠ Kind.added) ∧
    (∀ (cf df : List Char → List Char) (st fn : List Char),
      st.head? = some 'M' → df fn ≠ [] →
      prepareOne cf df st fn = some ⟨fn, Kind.modified, df fn⟩) ∧
    (∀ (cf df : List Char → List Char) (st fn : List Char),
      st.head? = some 'R' → df fn ≠ [] →
      prepareOne cf df st fn = some ⟨fn, Kind.renamed, df fn⟩) ∧
    (∀ (cf df : List Char → List Char) (st fn : List Char),
      st.head? = some 'D' → prepareOne cf df st fn = none) ∧
    (∀ (cf df : List Char → List Char) (st fn : List Char),
      st.head? ≠ some 'A' → st.head? ≠ some 'M' → st.head? ≠ some 'D' →
      st.head? ≠ some 'R' → prepareOne cf df st fn = none) := by
  have hmem_added : ∀ (staged : List (List Char × List Char)) (st fn : List Char)
      (cats : Categories),
      (st, fn) ∈ staged → st.head? = some 'A' →
      categorize_changes staged = some cats → fn ∈ cats.added := by
    intro staged
    induction staged with
    | nil => intro st fn cats hmem; cases hmem
    | cons p tl ih =>
      intro st fn cats hmem hA hcats
      obtain ⟨pst, pfn⟩ := p
      rcases hk : classify pst with _ | k
      · rw [categorize_changes, hk] at hcats
        cases hcats
      · rcases hct : categorize_changes tl with _ | cs
        · rw [categorize_changes, hk, hct] at hcats
          cases hcats
        · rw [categorize_changes, hk, hct] at hcats
          injection hcats with hcats
          subst hcats
          rcases List.mem_cons.mp hmem with heq | htail
          · injection heq with h1 h2
            subst h1
            subst h2
            cases st with
            | nil => cases hA
            | cons c r =>
              have hcA : c = 'A' := by simpa using hA
              subst hcA
              have : k = Kind.added := by
                rw [classify] at hk
                injection hk with hk
                simpa using hk.symm
              subst this
              exact List.mem_cons_self _ _
          · have hin : fn ∈ cs.added := ih st fn cs htail hA hct
            cases k <;> first
              | exact List.mem_cons_of_mem _ hin
              | exact hin
  refine ⟨fun cf df st fn hA hguard => ?_, hmem_added,
          fun cf df staged fn hguard ci hci hfn => ?_,
          fun cf df st fn hM hdiff => ?_,
          fun cf df st fn hR hdiff => ?_,
          fun cf df st fn hD => ?_,
          fun cf df st fn h1 h2 h3 h4 => ?_⟩
  · rw [prepareOne, if_pos hA, if_neg]
    intro hand
    rw [hguard] at hand
    exact absurd hand.2 (by decide)
  · intro hkind
    rw [prepare_changes_for_ai, List.mem_filterMap] at hci
    obtain ⟨⟨st, fn'⟩, _, hone⟩ := hci
    obtain ⟨hf, hg⟩ := prepareOne_inv cf df st fn' ci hone
    rw [hf] at hfn
    subst hfn
    rw [hg hkind] at hguard
    cases hguard
  · have hnA : ¬(st.head? = some 'A') := by rw [hM]; decide
    rw [prepareOne, if_neg hnA, if_pos hM, if_pos hdiff]
  · have hnA : ¬(st.head? = some 'A') := by rw [hR]; decide
    have hnM : ¬(st.head? = some 'M') := by rw [hR]; decide
    have hnD : ¬(st.head? = some 'D') := by rw [hR]; decide
    rw [prepareOne, if_neg hnA, if_neg hnM, if_neg hnD, if_pos hR, if_pos hdiff]
  · have hnA : ¬(st.head? = some 'A') := by rw [hD]; decide
    have hnM : ¬(st.head? = some 'M') := by rw [hD]; decide
    rw [prepareOne, if_neg hnA, if_neg hnM, if_pos hD]
  · rw [prepareOne, if_neg h1, if_neg h2]
    rw [if_neg h3, if_neg h4]

/-- Counterexample to C2 as stated: a staged *modified* path with the
denylisted extension `.png` and a non-empty diff is still included in the
summarization payload — the guard does not apply to its change kind. -/
theorem c2_counterexample :
    prepare_changes_for_ai (fun _ => []) (fun _ => "d".data)
      [("M".data, "img.png".data)] =
      [⟨"img.png".data, Kind.modified, "d".data⟩] ∧
    (pathSuffix "img.png".data).map Char.toLower ∈ binary_extensions := by
  exact ⟨by decide, by decide⟩

/-- Witness for the amended C2: an added `.png` file is dropped from the
payload while `img.png` still appears in the added category listing. -/
theorem c2_witness :
    prepareOne (fun _ => "hello".data) (fun _ => []) "A".data "img.png".data = none ∧
    "img.png".data ∈ (⟨["img.png".data], [], [], [], []⟩ : Categories).added :=
  ⟨c2_amended_guard.1 _ _ _ _ (by decide) (by decide),
   c2_amended_guard.2.1 [("A".data, "img.png".data)] "A".data "img.png".data
     ⟨["img.png".data], [], [], [], []⟩ (by decide) (by decide) (by decide)⟩

/-! Claim C4: exit signals of the four terminal outcomes. -/

/-- Claim C4, amended: not-a-repository and no-staged-changes exit with
the error code 1; the declined path and the success path both exit with
code 0 — the declined exit code is the *same* as the success exit code,
the two paths differing only in whether the README is written. -/
theorem c4_amended_exit_codes (env : RunEnv) (c : Nat) (d : Option (List Char))
    (h : run env = some (c, d)) :
    ((env.isRepo = false ∨ env.staged = []) → c = 1) ∧
    (env.isRepo = true → env.staged ≠ [] → c = 0) := by
  by_cases h1 : env.isRepo = false
  · rw [run, if_pos h1] at h
    injection h with h
    have hc : c = 1 := (congrArg Prod.fst h).symm
    exact ⟨fun _ => hc, fun hr _ => absurd h1 (by simp [hr])⟩
  · by_cases h2 : env.staged = []
    · rw [run, if_neg h1, if_pos h2] at h
      injection h with h
      have hc : c = 1 := (congrArg Prod.fst h).symm
      exact ⟨fun _ => hc, fun _ hs => absurd h2 hs⟩
    · rw [run, if_neg h1, if_neg h2] at h
      rcases hcat : categorize_changes env.staged with _ | cats
      · rw [hcat] at h
        cases h
      · rw [hcat] at h
        dsimp only at h
        have herr : (env.isRepo = false ∨ env.staged = []) → c = 1 :=
          fun hor => hor.elim (fun e => absurd e h1) (fun e => absurd e h2)
        split_ifs at h
        · rcases Option.map_eq_some'.mp h with ⟨nd, _, he⟩
          exact ⟨herr, fun _ _ => (congrArg Prod.fst he).symm⟩
        · rcases Option.map_eq_some'.mp h with ⟨nd, _, he⟩
          exact ⟨herr, fun _ _ => (congrArg Prod.fst he).symm⟩
        · injection h with h
          exact ⟨herr, fun _ _ => (congrArg Prod.fst h).symm⟩

/-- Counterexample to C4 as stated: at the same repository state, the
declined run and the successful run both terminate with exit code 0 —
the declined exit signal does not differ from the success exit signal
(they differ only in the resulting README). -/
theorem c4_counterexample :
    (run ⟨true, [("M".data, "f".data)], fun _ => [], fun _ => [], [],
       "2026-01-01".data, none, HttpOutcome.transportError, "n".data,
       some "## Changelog\n".data⟩).map Prod.fst = some 0 ∧
    (run ⟨true, [("M".data, "f".data)], fun _ => [], fun _ => [], [],
       "2026-01-01".data, none, HttpOutcome.transportError, "y".data,
       some "## Changelog\n".data⟩).map Prod.fst = some 0 ∧
    (run ⟨true, [("M".data, "f".data)], fun _ => [], fun _ => [], [],
       "2026-01-01".data, none, HttpOutcome.transportError, "n".data,
       some "## Changelog\n".data⟩).map Prod.snd ≠
      (run ⟨true, [("M".data, "f".data)], fun _ => [], fun _ => [], [],
         "2026-01-01".data, none, HttpOutcome.transportError, "y".data,
         some "## Changelog\n".data⟩).map Prod.snd :=
  ⟨by decide, by decide, by decide⟩

/-- Witness for the amended C4: a not-a-repository run exits 1, a
declined run exits 0. -/
theorem c4_witness :
    ((1 : Nat) = 1) ∧ ((0 : Nat) = 0) :=
  ⟨(c4_amended_exit_codes
      ⟨false, [], fun _ => [], fun _ => [], [], [], none,
        HttpOutcome.transportError, [], none⟩ 1 none (by decide)).1
      (Or.inl rfl),
   (c4_amended_exit_codes
      ⟨true, [("M".data, "f".data)], fun _ => [], fun _ => [], [],
        "2026-01-01".data, none, HttpOutcome.transportError, "n".data,
        some "## Changelog\n".data⟩ 0 (some "## Changelog\n".data)
      (by decide)).2 rfl (by decide)⟩

/-! Claim C9: a declined confirmation never writes the document. -/

/-- Claim C9: for every operator response whose stripped lower-cased form
is neither `y` nor `yes`, the README state after `run` is exactly the
README state before — `update_readme` is never invoked on the declined
path. -/
theorem c9_declined_no_write (env : RunEnv)
    (h1 : stripLower env.response ≠ "y".data)
    (h2 : stripLower env.response ≠ "yes".data)
    (c : Nat) (d : Option (List Char)) (h : run env = some (c, d)) :
    d = env.readme := by
  by_cases hr : env.isRepo = false
  · rw [run, if_pos hr] at h
    injection h with h
    exact (congrArg Prod.snd h).symm
  · by_cases hs : env.staged = []
    · rw [run, if_neg hr, if_pos hs] at h
      injection h with h
      exact (congrArg Prod.snd h).symm
    · rw [run, if_neg hr, if_neg hs] at h
      rcases hcat : categorize_changes env.staged with _ | cats
      · rw [hcat] at h
        cases h
      · rw [hcat] at h
        dsimp only at h
        rw [if_neg (not_or.mpr ⟨h1, h2⟩)] at h
        injection h with h
        exact (congrArg Prod.snd h).symm

/-- Witness for C9 at a concrete declined run. -/
theorem c9_witness :
    (some "## Changelog\n".data : Option (List Char)) =
      RunEnv.readme ⟨true, [("M".data, "f".data)], fun _ => [], fun _ => [], [],
        "2026-01-01".data, none, HttpOutcome.transportError, "n".data,
        some "## Changelog\n".data⟩ :=
  c9_declined_no_write _ (by decide) (by decide) 0 (some "## Changelog\n".data)
    (by decide)

/-! Claim C7: summarization never aborts the pipeline. -/

theorem take_append_ne (pre x t : List Char) (hlen : 3 ≤ pre.length)
    (hne : t.take 3 ≠ pre.take 3) : t ≠ pre ++ x := by
  intro he
  apply hne
  rw [he, List.take_append_of_le_length hlen]

/-- No line of a fragment rendered without an AI summary is the
`**Summary:**` label line. -/
theorem no_summary_line (date stats : List Char) (cats : Categories) :
    "**Summary:**".data ∉ generateLines date cats stats none := by
  intro hmem
  simp only [generateLines, List.mem_append, List.mem_cons, List.mem_singleton,
    List.not_mem_nil, or_false, false_or, List.mem_ite_nil_right] at hmem
  rcases hmem with
    ((((((h | ⟨_, h⟩) | ⟨_, h⟩) | ⟨_, h⟩) | ⟨_, h⟩) | ⟨_, h⟩) | ⟨_, h | h⟩) | h
  · exact take_append_ne "## Changes - ".data _ "**Summary:**".data
      (by decide) (by decide) h
  · exact take_append_ne "**Added files:** ".data _ "**Summary:**".data
      (by decide) (by decide) h
  · exact take_append_ne "**Modified files:** ".data _ "**Summary:**".data
      (by decide) (by decide) h
  · exact take_append_ne "**Deleted files:** ".data _ "**Summary:**".data
      (by decide) (by decide) h
  · exact take_append_ne "**Renamed files:** ".data _ "**Summary:**".data
      (by decide) (by decide) h
  · exact take_append_ne "**Copied files:** ".data _ "**Summary:**".data
      (by decide) (by decide) h
  · exact absurd h (by decide)
  · exact take_append_ne "```\n".data _ "**Summary:**".data
      (by decide) (by decide) h
  · exact absurd h (by decide)

/-- Claim C7: the summarization client returns nothing (never raising)
when no credential is configured, on a transport error, on any non-200
status, on a malformed body and on an empty choices list; on HTTP 200
with a well-formed body it returns the first choice's content stripped of
surrounding whitespace; and a fragment rendered with no summary carries no
`**Summary:**` block, so the pipeline still produces an entry. -/
theorem c7_summarize_optional :
    (∀ outcome : HttpOutcome, call_openai_api none outcome = none) ∧
    (∀ k : List Char, call_openai_api (some k) HttpOutcome.transportError = none) ∧
    (∀ (k : List Char) (status : Nat) (body : ApiBody), status ≠ 200 →
      call_openai_api (some k) (HttpOutcome.response status body) = none) ∧
    (∀ k : List Char,
      call_openai_api (some k) (HttpOutcome.response 200 ApiBody.malformed) = none) ∧
    (∀ k : List Char,
      call_openai_api (some k)
        (HttpOutcome.response 200 (ApiBody.wellFormed [])) = none) ∧
    (∀ (k c : List Char) (rest : List (List Char)),
      call_openai_api (some k)
        (HttpOutcome.response 200 (ApiBody.wellFormed (c :: rest))) =
        some (pyStrip c)) ∧
    (∀ (date stats : List Char) (cats : Categories),
      "**Summary:**".data ∉ generateLines date cats stats none) :=
  ⟨fun _ => rfl, fun _ => rfl, fun _ _ _ hst => if_neg hst, fun _ => rfl,
   fun _ => rfl, fun _ _ _ => rfl, no_summary_line⟩

/-- Witness for C7 at a failing HTTP status. -/
theorem c7_witness :
    call_openai_api (some "k".data)
      (HttpOutcome.response 404 (ApiBody.wellFormed ["hi".data])) = none :=
  c7_summarize_optional.2.2.1 "k".data 404 (ApiBody.wellFormed ["hi".data])
    (by decide)

/-! Claim C8: the rendered fragment refines the specified layout. -/

set_option maxHeartbeats 1000000 in
/-- Claim C8, amended: for every input (with the clock fixed as the
`date` argument and the stats input a single line), the rendered fragment
equals the layout the claim describes with the summary block emitted only
for a present *non-empty* summary: dated header, optional summary block,
the per-category lines in the fixed order added, modified, deleted,
renamed, copied, the optional fenced stats block and the trailing blank
line.  Both sides are functions of the inputs alone, so identical inputs
yield byte-identical output. -/
theorem c8_render (date stats : List Char) (cats : Categories)
    (ai : Option (List Char)) (hstats : '\n' ∉ stats) :
    generate_summary date cats stats ai = renderSpecC8 date cats stats ai := by
  have hlast : (pySplit '\n' stats).getLastD [] = stats := by
    rw [pySplit_no_sep '\n' stats hstats]
    rfl
  simp only [generate_summary, generateLines, renderSpecC8, hlast]
  cases ai <;> dsimp only <;> split_ifs <;>
    simp only [joinNL, List.append_assoc, List.cons_append, List.nil_append,
      List.append_nil, List.singleton_append]

/-- Witness for C8 at the scenario of the specification: three staged
files, no credential. -/
theorem c8_witness :
    generate_summary "2026-01-01".data
      ⟨["newfile.py".data], ["existing.py".data], ["old.txt".data], [], []⟩
      "2 files changed".data none =
    renderSpecC8 "2026-01-01".data
      ⟨["newfile.py".data], ["existing.py".data], ["old.txt".data], [], []⟩
      "2 files changed".data none :=
  c8_render "2026-01-01".data "2 files changed".data
    ⟨["newfile.py".data], ["existing.py".data], ["old.txt".data], [], []⟩
    none (by decide)

/-- Counterexample to C8 as stated: with a summary that is present but
empty (reachable, since the client returns the stripped first choice of a
whitespace-only 200 response), the truthiness check `if ai_summary:`
omits the `**Summary:**` block the claim requires for every present
summary — the fragment is just the dated header and trailing blank
line. -/
theorem c8_counterexample :
    generate_summary "2026-01-01".data ⟨[], [], [], [], []⟩ [] (some []) =
      "## Changes - 2026-01-01\n".data ∧
    "**Summary:**".data ∉
      generateLines "2026-01-01".data ⟨[], [], [], [], []⟩ [] (some []) ∧
    call_openai_api (some "k".data)
      (HttpOutcome.response 200 (ApiBody.wellFormed [" ".data])) = some [] :=
  ⟨by decide, by decide, by decide⟩

/-! Claim C5: appending a new changelog section. -/

/-- Claim C5, amended: when no heading matches, `update_readme` first
ensures the prior content ends with a newline (appending one when it does
not), then appends one separating newline, the `## Changelog` heading, a
blank line, the fragment and a final newline; exactly one newline
separates the newline-terminated prior content from the new heading. -/
theorem c5_amended_append (content frag : List Char)
    (h : searchHeading content = false) :
    update_readme_content content frag =
      some (ensureNL content ++ '\n' :: "## Changelog\n\n".data ++ frag ++ ['\n']) := by
  rw [update_readme_content, if_neg (by simp [h])]

/-- Counterexample to C5 as stated: for the heading-free document `abc`
(which does not end in a newline), the characters between the prior
content and the new heading are two newlines, not exactly one — the
result is `abc\n\n## Changelog\n\nF\n`, whereas exactly one separating
newline would begin `abc\n#`. -/
theorem c5_counterexample :
    update_readme_content "abc".data "F".data =
      some "abc\n\n## Changelog\n\nF\n".data ∧
    (update_readme_content "abc".data "F".data).map (List.take 5) ≠
      some "abc\n#".data :=
  ⟨by decide, by decide⟩

/-- Witness for the amended C5 at the same concrete document. -/
theorem c5_witness :
    update_readme_content "abc".data "F".data =
      some (ensureNL "abc".data ++ '\n' :: "## Changelog\n\n".data ++ "F".data ++ ['\n']) :=
  c5_amended_append "abc".data "F".data (by decide)

/-! Claim C1: insertion after an existing heading. -/

theorem matchHeadingAt_nil : matchHeadingAt [] = none := by decide

theorem lastNL_eq_none (w : List Char) (h : '\n' ∉ w) : lastNL w = none := by
  induction w with
  | nil => rfl
  | cons c rest ih =>
    have hc : ¬(c = '\n') := fun e => h (e ▸ List.mem_cons_self c rest)
    simp [lastNL, ih (fun m => h (List.mem_cons_of_mem _ m)), hc]

theorem subHeadingAux_zero (frag s : List Char) :
    subHeadingAux frag 0 s = some s := by
  cases s <;> rfl

/-- A backslash-free stretch of the replacement template expands to
itself. -/
theorem expandTemplateAux_lit (matched : List Char) (fuel : Nat) (tmpl : List Char)
    (h : '\\' ∉ tmpl) (hf : tmpl.length ≤ fuel) :
    expandTemplateAux matched fuel tmpl = some tmpl := by
  induction tmpl generalizing fuel with
  | nil => cases fuel <;> rfl
  | cons c rest ih =>
    cases fuel with
    | zero => simp at hf
    | succ fuel =>
      have hc : ¬(c = '\\') := fun e => h (e ▸ List.mem_cons_self c rest)
      have hrest : '\\' ∉ rest := fun m => h (List.mem_cons_of_mem _ m)
      have hlen : rest.length ≤ fuel := by
        simp only [List.length_cons] at hf
        omega
      simp only [expandTemplateAux, if_neg hc]
      rw [ih fuel hrest hlen]
      rfl

/-- The leading `\1` of the replacement template expands to the matched
text when the rest of the template does not begin with a digit. -/
theorem expandTemplateAux_group1 (matched : List Char) (fuel : Nat)
    (rest : List Char) (hd : headNotDigit rest = true) :
    expandTemplateAux matched (fuel + 1) ('\\' :: '1' :: rest) =
      (expandTemplateAux matched fuel rest).map (fun t => matched ++ t) := by
  cases rest with
  | nil =>
    have hnil : expandTemplateAux matched fuel ([] : List Char) = some [] := by
      cases fuel <;> rfl
    rw [hnil]
    show some matched = some (matched ++ [])
    rw [List.append_nil]
  | cons d rest' =>
    have hdd : isDig d = false := by simpa [headNotDigit] using hd
    have h1d : isDig '1' = true := by decide
    have h1v : digVal '1' ≤ 1 := by decide
    simp [expandTemplateAux, hdd, h1d, h1v]

/-- The whole template `\1 ++ frag ++ newline` expands to the match
followed by the fragment and a newline, for a backslash-free fragment
that does not begin with a digit. -/
theorem expandTemplate_frag (matched frag : List Char) (hbs : '\\' ∉ frag)
    (hdg : headNotDigit frag = true) :
    expandTemplate matched ('\\' :: '1' :: (frag ++ ['\n'])) =
      some (matched ++ (frag ++ ['\n'])) := by
  have hd' : headNotDigit (frag ++ ['\n']) = true := by
    cases frag with
    | nil => decide
    | cons a l => simpa [headNotDigit, List.cons_append] using hdg
  have hbs' : '\\' ∉ (frag ++ ['\n']) := by
    intro hm
    rcases List.mem_append.mp hm with h | h
    · exact hbs h
    · exact absurd (List.mem_singleton.mp h) (by decide)
  have hlen : ('\\' :: '1' :: (frag ++ ['\n'])).length = (frag.length + 2) + 1 := by
    simp only [List.length_cons, List.length_append, List.length_nil]
  rw [expandTemplate, hlen,
    expandTemplateAux_group1 matched (frag.length + 2) (frag ++ ['\n']) hd',
    expandTemplateAux_lit matched (frag.length + 2) (frag ++ ['\n']) hbs'
      (by simp only [List.length_append, List.length_cons, List.length_nil]; omega)]
  rfl

/-- A text with no heading match at any position is left unchanged by the
substitution scan. -/
theorem subHeadingAux_id (frag : List Char) (fuel : Nat) (t : List Char)
    (h : ∀ i, matchHeadingAt (t.drop i) = none) :
    subHeadingAux frag fuel t = some t := by
  induction t generalizing fuel with
  | nil => cases fuel <;> rfl
  | cons c rest ih =>
    cases fuel with
    | zero => rfl
    | succ fuel =>
      have h0 : matchHeadingAt (c :: rest) = none := by simpa using h 0
      simp only [subHeadingAux, h0]
      rw [ih fuel (fun i => by simpa using h (i + 1))]
      rfl

/-- The substitution scan passes unchanged over a prefix containing no
match position. -/
theorem subHeadingAux_scanPast (frag : List Char) (pre : List Char) :
    ∀ (t : List Char) (fuel : Nat),
    (∀ i < pre.length, matchHeadingAt ((pre ++ t).drop i) = none) →
    subHeadingAux frag fuel (pre ++ t) =
      (subHeadingAux frag (fuel - pre.length) t).map (fun s => pre ++ s) := by
  induction pre with
  | nil =>
    intro t fuel _
    cases subHeadingAux frag (fuel - 0) t <;> simp
  | cons c pre' ih =>
    intro t fuel h
    cases fuel with
    | zero =>
      rw [subHeadingAux_zero, Nat.zero_sub, subHeadingAux_zero]
      rfl
    | succ fuel =>
      have h0 : matchHeadingAt (c :: (pre' ++ t)) = none := by simpa using h 0 (by simp)
      have h' : ∀ i < pre'.length, matchHeadingAt ((pre' ++ t).drop i) = none := by
        intro i hi
        have := h (i + 1) (by simp; omega)
        simpa using this
      simp only [List.cons_append, subHeadingAux, List.append_eq, h0, List.length_cons]
      rw [ih t fuel h', Nat.succ_sub_succ]
      cases subHeadingAux frag (fuel - pre'.length) t <;> simp

/-- One substitution step at a match whose template expansion
succeeds. -/
theorem subHeadingAux_step (frag s : List Char) (fuel n : Nat) (repl : List Char)
    (hs : s ≠ []) (hm : matchHeadingAt s = some n)
    (he : expandTemplate (s.take n) ('\\' :: '1' :: (frag ++ ['\n'])) = some repl) :
    subHeadingAux frag (fuel + 1) s =
      (subHeadingAux frag fuel (s.drop n)).map (fun t => repl ++ t) := by
  cases s with
  | nil => exact absurd rfl hs
  | cons c rest => simp only [subHeadingAux, hm, he]

/-- A match somewhere makes the search succeed. -/
theorem searchHeading_of_match (s : List Char) (i : Nat)
    (h : (matchHeadingAt (s.drop i)).isSome) : searchHeading s = true := by
  induction s generalizing i with
  | nil =>
    rw [List.drop_nil, matchHeadingAt_nil] at h
    cases h
  | cons c rest ih =>
    cases i with
    | zero =>
      rw [List.drop_zero] at h
      simp [searchHeading, h]
    | succ i =>
      rw [List.drop_succ_cons] at h
      simp [searchHeading, ih i h]

/-- The pattern matches the heading itself with length 13 whenever the
whitespace that follows the heading's newline contains no further
newline. -/
theorem matchHeadingAt_heading (t : List Char)
    (h : '\n' ∉ t.takeWhile isPySpace) :
    matchHeadingAt ("## Changelog\n".data ++ t) = some 13 := by
  have h12 : ("## Changelog\n".data ++ t).take 12 = "## Changelog".data := by
    rw [List.take_append_of_le_length (by decide)]
    decide
  have hcond : (("## Changelog\n".data ++ t).take 12).map Char.toLower =
      "## changelog".data := by
    rw [h12]
    decide
  have hdrop : ("## Changelog\n".data ++ t).drop 12 = '\n' :: t := by
    rw [List.drop_append_of_le_length (by decide),
      show "## Changelog\n".data.drop 12 = ['\n'] from by decide]
    rfl
  have htw : ('\n' :: t).takeWhile isPySpace = '\n' :: t.takeWhile isPySpace := by
    rw [List.takeWhile_cons]
    simp [isPySpace]
  have hl : lastNL ('\n' :: t.takeWhile isPySpace) = some 0 := by
    simp [lastNL, lastNL_eq_none _ h]
  rw [matchHeadingAt, if_pos hcond, hdrop, htw, hl]

/-- Claim C1, amended: consider a document of the form
`pre ++ "## Changelog\n" ++ t` where the pattern matches at no position
inside `pre`, the whitespace run at the head of `t` contains no newline
(so the greedy `\s*` of the pattern stops at the heading's own newline),
and the pattern matches nowhere in `t`; and a fragment that contains no
backslash and does not begin with a digit (otherwise the `re.sub`
replacement template `r'\1' + fragment + '\n'` processes the fragment's
characters as template escapes — raising `re.error`, splicing group
text, or merging digits into the group reference — instead of inserting
it verbatim).  Then the update inserts the fragment followed by one
newline immediately after the heading line, at exactly that one place,
and every other character is unchanged. -/
theorem c1_amended_insert (pre t frag : List Char)
    (hpre : ∀ i < pre.length,
      matchHeadingAt ((pre ++ "## Changelog\n".data ++ t).drop i) = none)
    (hws : '\n' ∉ t.takeWhile isPySpace)
    (ht : ∀ i < t.length, matchHeadingAt (t.drop i) = none)
    (hbs : '\\' ∉ frag) (hdg : headNotDigit frag = true) :
    update_readme_content (pre ++ "## Changelog\n".data ++ t) frag =
      some (pre ++ "## Changelog\n".data ++ frag ++ '\n' :: t) := by
  have hmatch := matchHeadingAt_heading t hws
  have ht' : ∀ i, matchHeadingAt (t.drop i) = none := by
    intro i
    by_cases hi : i < t.length
    · exact ht i hi
    · rw [List.drop_of_length_le (le_of_not_lt hi)]
      exact matchHeadingAt_nil
  have h13 : "## Changelog\n".data.length = 13 := by decide
  have hpre' : ∀ i < pre.length,
      matchHeadingAt ((pre ++ ("## Changelog\n".data ++ t)).drop i) = none := by
    intro i hi
    have := hpre i hi
    simpa [List.append_assoc] using this
  have hdoc : pre ++ "## Changelog\n".data ++ t =
      pre ++ ("## Changelog\n".data ++ t) := List.append_assoc _ _ _
  have hsearch : searchHeading (pre ++ ("## Changelog\n".data ++ t)) = true := by
    apply searchHeading_of_match _ pre.length
    rw [List.drop_left pre, hmatch]
    rfl
  rw [update_readme_content, hdoc, if_pos hsearch, subHeading,
    subHeadingAux_scanPast frag pre ("## Changelog\n".data ++ t) _ hpre']
  have hfuel : (pre ++ ("## Changelog\n".data ++ t)).length - pre.length =
      12 + t.length + 1 := by
    simp only [List.length_append, h13]
    omega
  have hne : "## Changelog\n".data ++ t ≠ [] := by
    apply List.ne_nil_of_length_pos
    rw [List.length_append, h13]
    omega
  have hexp : expandTemplate (("## Changelog\n".data ++ t).take 13)
      ('\\' :: '1' :: (frag ++ ['\n'])) =
      some (("## Changelog\n".data ++ t).take 13 ++ (frag ++ ['\n'])) :=
    expandTemplate_frag _ frag hbs hdg
  rw [hfuel, subHeadingAux_step frag _ (12 + t.length) 13 _ hne hmatch hexp,
    List.take_left' (by decide), List.drop_left' (by decide),
    subHeadingAux_id frag _ t ht']
  simp [List.append_assoc]

/-- Counterexample to C1 as stated: the document `## Changelog\n\nB`
contains the heading line followed by a newline, but the greedy `\s*` of
the pattern absorbs the following blank line, so the fragment is inserted
after the blank line, not immediately after the heading line: the first
fourteen characters of the result are `## Changelog\n\n`, not
`## Changelog\nX`. -/
theorem c1_counterexample :
    update_readme (some "## Changelog\n\nB".data) "X".data =
      some "## Changelog\n\nX\nB".data ∧
    (update_readme (some "## Changelog\n\nB".data) "X".data).map (List.take 14) ≠
      some "## Changelog\nX".data :=
  ⟨by decide, by decide⟩

/-- Witness for the amended C1 at the document `## Changelog\nB`. -/
theorem c1_witness :
    update_readme_content ([] ++ "## Changelog\n".data ++ "B".data) "X".data =
      some ([] ++ "## Changelog\n".data ++ "X".data ++ '\n' :: "B".data) :=
  c1_amended_insert [] "B".data "X".data (by simp) (by decide) (by decide)
    (by decide) (by decide)

end Changeblogger
